import Mathlib

/-!
Verification of the HCP-interaction CRM core (src/app.py): the SQLite-backed
interaction store, the five agent tools, and the keyword dispatcher
`decide_action`.  The store is modelled as a list of rows in insertion order;
`AUTOINCREMENT` ids are `maxId + 1` (no row is ever deleted, so this matches
SQLite's assignment).  The external LLM is an oracle `String → String`
(or `String → Except String String` where failures matter), and each tool
records the prompts it sends in a `calls` field.
-/

/-- One row of the `interactions` table (CREATE TABLE in src/app.py, lines
30-42).  All TEXT columns are nullable, hence `Option String`. -/
structure Row where
  id : Nat
  hcp_name : Option String
  interaction_type : Option String
  interaction_datetime : Option String
  topics_discussed : Option String
  products_discussed : Option String
  sentiment : Option String
  follow_up_actions : Option String
  ai_summary : Option String
deriving DecidableEq

/-- The LangGraph `AgentState` TypedDict (src/app.py, lines 56-59). -/
structure AgentState where
  user_input : String
  action : Option String
  result : Option String

/-- Result of running one tool: the store after the tool, the list of prompts
sent to the LLM, and the textual result returned to the agent state. -/
structure ToolOut where
  db : List Row
  calls : List String
  result : String

/-- `SELECT MAX(id) FROM interactions` on a non-empty table; `0` on the empty
table (where SQL would give NULL — the NULL case is handled at use sites). -/
def maxId (db : List Row) : Nat := db.foldr (fun r m => max r.id m) 0

/-- Python's `str.lower()` applied characterwise to the input text
(src/app.py line 122: `text = state["user_input"].lower()`). -/
def lowerInput (s : String) : List Char := s.toList.map Char.toLower

/-- Auxiliary for substring containment: does `text` start with `kw`? -/
def startsWith : List Char → List Char → Bool
  | [], _ => true
  | _ :: _, [] => false
  | k :: ks, c :: cs => k == c && startsWith ks cs

/-- Python's substring test `kw in text` on character lists. -/
def containsSub (kw : List Char) : List Char → Bool
  | [] => startsWith kw []
  | c :: cs => startsWith kw (c :: cs) || containsSub kw cs

/-- Keyword containment check used by the dispatcher: `kw in text` where
`text` is the lowercased input. -/
def kwIn (kw : String) (text : List Char) : Bool := containsSub kw.toList text

/-- The dispatcher `decide_action` (src/app.py, lines 121-133): lowercase the
input, then first-match-wins over "edit", "follow", "sentiment", "summarize",
defaulting to "log". -/
def decide_action (state : AgentState) : String :=
  let text := lowerInput state.user_input
  if kwIn "edit" text then "edit"
  else if kwIn "follow" text then "followup"
  else if kwIn "sentiment" text then "sentiment"
  else if kwIn "summarize" text then "summarize"
  else "log"

/-- `log_interaction_tool` (src/app.py, lines 64-84): INSERT of one row with
placeholder HCP name, fixed type "Meeting", the current timestamp `now`, and
the raw input in both `topics_discussed` and `ai_summary`; the remaining
columns are NULL.  Returns the fixed confirmation string. -/
def log_interaction_tool (now text : String) (db : List Row) : ToolOut :=
  { db := db ++ [{ id := maxId db + 1,
                   hcp_name := some "Extracted via AI",
                   interaction_type := some "Meeting",
                   interaction_datetime := some now,
                   topics_discussed := some text,
                   products_discussed := none,
                   sentiment := none,
                   follow_up_actions := none,
                   ai_summary := some text }],
    calls := [],
    result := "✅ Interaction logged successfully using AI." }

/-- Effect of the UPDATE's row predicate `WHERE id = (SELECT MAX(id) ...)` on
one row: when the selected max id (`none` on the empty table, where SQL MAX is
NULL) equals the row's id, set `follow_up_actions`; otherwise leave the row. -/
def updateRowIfTarget (target : Option Nat) (text : String) (r : Row) : Row :=
  if target = some r.id then { r with follow_up_actions := some text } else r

/-- `edit_interaction_tool` (src/app.py, lines 87-95):
`UPDATE interactions SET follow_up_actions = ? WHERE id = (SELECT MAX(id) ...)`.
On an empty table `MAX(id)` is NULL, so the WHERE clause matches no row and the
UPDATE is a no-op; the tool unconditionally returns its confirmation string. -/
def edit_interaction_tool (text : String) (db : List Row) : ToolOut :=
  let target : Option Nat := if db.isEmpty then none else some (maxId db)
  { db := db.map (updateRowIfTarget target text),
    calls := [],
    result := "✏️ Last interaction updated successfully." }

/-- Prompt template of `summarize_tool` (src/app.py, line 100). -/
def summarizePrompt (input : String) : String :=
  "Summarize this HCP interaction professionally:\n" ++ input

/-- Prompt template of `sentiment_tool` (src/app.py, line 107). -/
def sentimentPrompt (input : String) : String :=
  "Detect sentiment (Positive, Neutral, Negative):\n" ++ input

/-- Prompt template of `followup_tool` (src/app.py, line 114). -/
def followupPrompt (input : String) : String :=
  "Suggest next follow-up action for sales rep:\n" ++ input

/-- `summarize_tool` (src/app.py, lines 98-102): one LLM call, response
returned verbatim, no store access. -/
def summarize_tool (llm : String → String) (input : String) (db : List Row) : ToolOut :=
  { db := db, calls := [summarizePrompt input], result := llm (summarizePrompt input) }

/-- `sentiment_tool` (src/app.py, lines 105-109). -/
def sentiment_tool (llm : String → String) (input : String) (db : List Row) : ToolOut :=
  { db := db, calls := [sentimentPrompt input], result := llm (sentimentPrompt input) }

/-- `followup_tool` (src/app.py, lines 112-116). -/
def followup_tool (llm : String → String) (input : String) (db : List Row) : ToolOut :=
  { db := db, calls := [followupPrompt input], result := llm (followupPrompt input) }

/-- The compiled LangGraph agent (src/app.py, lines 138-173): route the state
through `decide_action` and run the selected tool. -/
def agent_invoke (llm : String → String) (now : String) (state : AgentState)
    (db : List Row) : ToolOut :=
  match decide_action state with
  | "edit" => edit_interaction_tool state.user_input db
  | "followup" => followup_tool llm state.user_input db
  | "sentiment" => sentiment_tool llm state.user_input db
  | "summarize" => summarize_tool llm state.user_input db
  | _ => log_interaction_tool now state.user_input db

/-- The form-submission INSERT (src/app.py, lines 207-229): all columns are
supplied by the form except `ai_summary`, which is NULL. -/
def form_insert_row (hcp itype idatetime topics products senti fua : String)
    (db : List Row) : List Row :=
  db ++ [{ id := maxId db + 1,
           hcp_name := some hcp,
           interaction_type := some itype,
           interaction_datetime := some idatetime,
           topics_discussed := some topics,
           products_discussed := some products,
           sentiment := some senti,
           follow_up_actions := some fua,
           ai_summary := none }]

/-- The store-mutating operations of the system: form insert, dispatcher log
insert, dispatcher edit.  `list_all` is read-only and excluded. -/
inductive Op where
  | form (hcp itype idatetime topics products senti fua : String)
  | log (now text : String)
  | edit (text : String)

/-- Effect of one operation on the store. -/
def applyOp (db : List Row) : Op → List Row
  | Op.form hcp itype idatetime topics products senti fua =>
      form_insert_row hcp itype idatetime topics products senti fua db
  | Op.log now text => (log_interaction_tool now text db).db
  | Op.edit text => (edit_interaction_tool text db).db

/-- The store reached from the empty table by a sequence of operations. -/
def exec (ops : List Op) : List Row := ops.foldl applyOp []

/-- Which operations insert a row. -/
def isInsert : Op → Bool
  | Op.edit _ => false
  | _ => true

/-- Descending-id order used by the list view query (`ORDER BY id DESC`). -/
def descRel (a b : Row) : Prop := b.id ≤ a.id

instance : DecidableRel descRel := fun a b => inferInstanceAs (Decidable (b.id ≤ a.id))

instance : IsTotal Row descRel := ⟨fun a b => Nat.le_total b.id a.id⟩

instance : IsTrans Row descRel := ⟨fun _ _ _ h1 h2 => Nat.le_trans h2 h1⟩

/-- The five columns selected by the list view query (src/app.py, lines
260-262): id, hcp_name, interaction_type, interaction_datetime, sentiment. -/
def rowSummary (r : Row) : Nat × Option String × Option String × Option String × Option String :=
  (r.id, r.hcp_name, r.interaction_type, r.interaction_datetime, r.sentiment)

/-- The list view query (src/app.py, lines 260-262):
`SELECT id, hcp_name, interaction_type, interaction_datetime, sentiment FROM
interactions ORDER BY id DESC` — all rows, sorted by id descending, projected
to the five selected columns. -/
def list_all (db : List Row) : List (Nat × Option String × Option String × Option String × Option String) :=
  (List.insertionSort descRel db).map rowSummary

/-- Fallible LLM oracle variant of `summarize_tool`: the single `llm.invoke`
may fail; the tool body has no exception handler, so the error propagates. -/
def summarize_toolE (llmE : String → Except String String) (input : String)
    (db : List Row) : Except String ToolOut :=
  match llmE (summarizePrompt input) with
  | Except.error e => Except.error e
  | Except.ok body => Except.ok { db := db, calls := [summarizePrompt input], result := body }

/-- Fallible LLM oracle variant of `sentiment_tool`. -/
def sentiment_toolE (llmE : String → Except String String) (input : String)
    (db : List Row) : Except String ToolOut :=
  match llmE (sentimentPrompt input) with
  | Except.error e => Except.error e
  | Except.ok body => Except.ok { db := db, calls := [sentimentPrompt input], result := body }

/-- Fallible LLM oracle variant of `followup_tool`. -/
def followup_toolE (llmE : String → Except String String) (input : String)
    (db : List Row) : Except String ToolOut :=
  match llmE (followupPrompt input) with
  | Except.error e => Except.error e
  | Except.ok body => Except.ok { db := db, calls := [followupPrompt input], result := body }

/-- Fallible store variant of `log_interaction_tool`: `commit` is the outcome
of `cursor.execute`/`conn.commit`; the tool has no exception handler. -/
def log_interaction_toolE (commit : Except String Unit) (now text : String)
    (db : List Row) : Except String ToolOut :=
  match commit with
  | Except.error e => Except.error e
  | Except.ok _ => Except.ok (log_interaction_tool now text db)

/-- Fallible store variant of `edit_interaction_tool`. -/
def edit_interaction_toolE (commit : Except String Unit) (text : String)
    (db : List Row) : Except String ToolOut :=
  match commit with
  | Except.error e => Except.error e
  | Except.ok _ => Except.ok (edit_interaction_tool text db)

/-- A sample row used by concrete witnesses. -/
def sampleRow (n : Nat) : Row :=
  { id := n, hcp_name := some "Dr. Sharma", interaction_type := some "Meeting",
    interaction_datetime := some "2026-10-12T10:00:00", topics_discussed := some "Product X",
    products_discussed := some "Product X", sentiment := some "Positive",
    follow_up_actions := some "call back", ai_summary := none }

/-- Claim C1: the dispatcher resolves every input to exactly one of the five
actions by checking the lowercase form of the input in fixed priority order
(edit, then follow, then sentiment, then summarize, default log); any input
containing "edit" resolves to the edit action. -/
theorem C1_dispatch_priority (s : AgentState) :
    decide_action s ∈ ["edit", "followup", "sentiment", "summarize", "log"]
    ∧ (kwIn "edit" (lowerInput s.user_input) = true → decide_action s = "edit")
    ∧ (kwIn "edit" (lowerInput s.user_input) = false →
        kwIn "follow" (lowerInput s.user_input) = true → decide_action s = "followup")
    ∧ (kwIn "edit" (lowerInput s.user_input) = false →
        kwIn "follow" (lowerInput s.user_input) = false →
        kwIn "sentiment" (lowerInput s.user_input) = true → decide_action s = "sentiment")
    ∧ (kwIn "edit" (lowerInput s.user_input) = false →
        kwIn "follow" (lowerInput s.user_input) = false →
        kwIn "sentiment" (lowerInput s.user_input) = false →
        kwIn "summarize" (lowerInput s.user_input) = true → decide_action s = "summarize")
    ∧ (kwIn "edit" (lowerInput s.user_input) = false →
        kwIn "follow" (lowerInput s.user_input) = false →
        kwIn "sentiment" (lowerInput s.user_input) = false →
        kwIn "summarize" (lowerInput s.user_input) = false → decide_action s = "log") := by
  unfold decide_action
  cases h1 : kwIn "edit" (lowerInput s.user_input) <;>
    cases h2 : kwIn "follow" (lowerInput s.user_input) <;>
      cases h3 : kwIn "sentiment" (lowerInput s.user_input) <;>
        cases h4 : kwIn "summarize" (lowerInput s.user_input) <;>
          simp [h1, h2, h3, h4]

/-- Witness for C1 at a concrete input containing both "edit" and
"summarize": the result is the edit action. -/
theorem C1_dispatch_priority_witness :
    decide_action { user_input := "Please edit and summarize this entry",
                    action := none, result := none } = "edit" :=
  (C1_dispatch_priority _).2.1 (by decide)

/-- Claim C10: the dispatcher's choice depends only on `user_input`; the
`action` and `result` fields of the agent state are irrelevant. -/
theorem C10_decide_action_only_reads_input (s1 s2 : AgentState)
    (h : s1.user_input = s2.user_input) : decide_action s1 = decide_action s2 := by
  unfold decide_action
  rw [h]

/-- Witness for C10: two states with the same input but different `action`
and `result` fields dispatch identically. -/
theorem C10_decide_action_only_reads_input_witness :
    decide_action { user_input := "note the visit", action := none, result := none } =
      decide_action { user_input := "note the visit", action := some "edit",
                      result := some "done" } :=
  C10_decide_action_only_reads_input _ _ rfl

/-- Claim C9: the edit action on an empty store is a no-op on state: no row
is created or modified and the store stays empty. -/
theorem C9_edit_on_empty_is_noop (t : String) :
    (edit_interaction_tool t []).db = [] ∧ (edit_interaction_tool t []).calls = [] :=
  ⟨rfl, rfl⟩

/-- Counterexample to claim C2 as stated: on the empty store the edit tool
returns its fixed success confirmation string (and performs no update), not a
false/NotFoundError failure result. -/
theorem C2_counterexample :
    (edit_interaction_tool "edit the follow up" []).result =
      "✏️ Last interaction updated successfully."
    ∧ (edit_interaction_tool "edit the follow up" []).db = [] :=
  ⟨rfl, rfl⟩

/-- Claim C2 (amended): invoking the edit operation on an empty store never
crashes and performs no update — the store stays empty — but it returns the
fixed success confirmation string rather than false or a NotFoundError. -/
theorem C2_edit_empty_returns_success_string (t : String) :
    (edit_interaction_tool t []).db = []
    ∧ (edit_interaction_tool t []).result = "✏️ Last interaction updated successfully."
    ∧ (edit_interaction_tool t []).calls = [] :=
  ⟨rfl, rfl, rfl⟩

/-- Claim C5: each of the summarize, sentiment and followup tools sends
exactly one prompt — the fixed template plus the raw input — to the LLM,
returns the LLM's response verbatim, and leaves the store unchanged. -/
theorem C5_llm_tools_single_call_verbatim_no_write (llm : String → String)
    (input : String) (db : List Row) :
    (summarize_tool llm input db).db = db
    ∧ (summarize_tool llm input db).calls = [summarizePrompt input]
    ∧ (summarize_tool llm input db).result = llm (summarizePrompt input)
    ∧ (sentiment_tool llm input db).db = db
    ∧ (sentiment_tool llm input db).calls = [sentimentPrompt input]
    ∧ (sentiment_tool llm input db).result = llm (sentimentPrompt input)
    ∧ (followup_tool llm input db).db = db
    ∧ (followup_tool llm input db).calls = [followupPrompt input]
    ∧ (followup_tool llm input db).result = llm (followupPrompt input) :=
  ⟨rfl, rfl, rfl, rfl, rfl, rfl, rfl, rfl, rfl⟩

/-- Unfolding of `maxId` on a cons cell. -/
theorem maxId_cons (a : Row) (l : List Row) : maxId (a :: l) = max a.id (maxId l) := rfl

/-- Every id in the store is bounded by `maxId`. -/
theorem le_maxId (db : List Row) : ∀ x ∈ db, x.id ≤ maxId db := by
  induction db with
  | nil => intro x hx; cases hx
  | cons a l ih =>
      intro x hx
      rw [maxId_cons]
      rcases List.mem_cons.mp hx with h | h
      · rw [h]; exact Nat.le_max_left _ _
      · exact Nat.le_trans (ih x h) (Nat.le_max_right _ _)

/-- On a non-empty store some row carries the maximum id. -/
theorem maxId_mem (db : List Row) (hne : db ≠ []) : ∃ r ∈ db, r.id = maxId db := by
  induction db with
  | nil => cases hne rfl
  | cons a l ih =>
      cases l with
      | nil =>
          refine ⟨a, List.mem_cons_self a [], ?_⟩
          rw [maxId_cons]
          have h0 : maxId ([] : List Row) = 0 := rfl
          omega
      | cons b m =>
          rcases ih (by simp) with ⟨r, hr, hid⟩
          by_cases hle : maxId (b :: m) ≤ a.id
          · refine ⟨a, List.mem_cons_self a _, ?_⟩
            rw [maxId_cons]
            omega
          · refine ⟨r, List.mem_cons_of_mem a hr, ?_⟩
            rw [maxId_cons]
            omega

/-- The UPDATE's per-row action never changes a row's id. -/
theorem updateRowIfTarget_id (target : Option Nat) (t : String) (r : Row) :
    (updateRowIfTarget target t r).id = r.id := by
  unfold updateRowIfTarget
  split <;> rfl

/-- The store component produced by the edit tool, in map form. -/
theorem edit_db_map (t : String) (db : List Row) :
    (edit_interaction_tool t db).db
      = db.map (updateRowIfTarget (if db.isEmpty then none else some (maxId db)) t) := rfl

/-- On a non-empty store the SELECT MAX subquery yields the maximum id. -/
theorem edit_db_cons (t : String) (a : Row) (l : List Row) :
    (edit_interaction_tool t (a :: l)).db
      = (a :: l).map (updateRowIfTarget (some (maxId (a :: l))) t) := rfl

/-- The edit tool preserves the sequence of ids of the store. -/
theorem edit_ids (t : String) (db : List Row) :
    ((edit_interaction_tool t db).db.map fun r => r.id) = db.map fun r => r.id := by
  rw [edit_db_map, List.map_map]
  simp only [Function.comp_def, updateRowIfTarget_id]

/-- Appending a row with a strictly larger id preserves ascending ids. -/
theorem asc_append (db : List Row) (r : Row)
    (h : db.Pairwise fun a b => a.id < b.id) (hgt : ∀ x ∈ db, x.id < r.id) :
    (db ++ [r]).Pairwise fun a b => a.id < b.id := by
  rw [List.pairwise_append]
  refine ⟨h, List.pairwise_singleton _ _, ?_⟩
  intro a ha b hb
  rw [List.mem_singleton] at hb
  rw [hb]
  exact hgt a ha

/-- Every operation preserves the ascending-ids invariant. -/
theorem asc_applyOp (db : List Row) (op : Op)
    (h : db.Pairwise fun a b => a.id < b.id) :
    (applyOp db op).Pairwise fun a b => a.id < b.id := by
  cases op with
  | form hcp itype idatetime topics products senti fua =>
      simp only [applyOp, form_insert_row]
      refine asc_append db _ h ?_
      intro x hx
      have := le_maxId db x hx
      show x.id < maxId db + 1
      omega
  | log now text =>
      simp only [applyOp, log_interaction_tool]
      refine asc_append db _ h ?_
      intro x hx
      have := le_maxId db x hx
      show x.id < maxId db + 1
      omega
  | edit t =>
      simp only [applyOp]
      rw [edit_db_map, List.pairwise_map]
      simp only [updateRowIfTarget_id]
      exact h

/-- The ascending-ids invariant holds for every store reachable by a
sequence of operations from an invariant-satisfying start. -/
theorem asc_foldl (ops : List Op) :
    ∀ db, (db.Pairwise fun a b => a.id < b.id) →
      ((ops.foldl applyOp db).Pairwise fun a b => a.id < b.id) := by
  induction ops with
  | nil => intro db h; exact h
  | cons op rest ih => intro db h; exact ih _ (asc_applyOp db op h)

/-- Each insert operation grows the store by exactly one row. -/
theorem applyOp_insert_length (db : List Row) (op : Op) (h : isInsert op = true) :
    (applyOp db op).length = db.length + 1 := by
  cases op with
  | form hcp itype idatetime topics products senti fua =>
      simp [applyOp, form_insert_row]
  | log now text =>
      simp [applyOp, log_interaction_tool]
  | edit t => simp [isInsert] at h

/-- No operation deletes a row: the id sequence before is a sublist of the
id sequence after. -/
theorem ids_sublist_applyOp (db : List Row) (op : Op) :
    ((db.map fun r => r.id).Sublist ((applyOp db op).map fun r => r.id)) := by
  cases op with
  | form hcp itype idatetime topics products senti fua =>
      simp only [applyOp, form_insert_row, List.map_append]
      exact List.sublist_append_left _ _
  | log now text =>
      simp only [applyOp, log_interaction_tool, List.map_append]
      exact List.sublist_append_left _ _
  | edit t =>
      simp only [applyOp]
      rw [edit_ids]

/-- Sorting after appending a row whose id dominates puts that row first. -/
theorem head_insertionSort_append (db : List Row) (nr : Row)
    (hgt : ∀ x ∈ db, x.id < nr.id) :
    (List.insertionSort descRel (db ++ [nr])).head? = some nr := by
  have hperm : (List.insertionSort descRel (db ++ [nr])).Perm (db ++ [nr]) :=
    List.perm_insertionSort _ _
  have hsorted : List.Sorted descRel (List.insertionSort descRel (db ++ [nr])) :=
    List.sorted_insertionSort _ _
  cases hl : List.insertionSort descRel (db ++ [nr]) with
  | nil =>
      exfalso
      have hlen := hperm.length_eq
      rw [hl] at hlen
      simp at hlen
  | cons hd tl =>
      rw [hl] at hperm hsorted
      have hmem : nr ∈ hd :: tl := hperm.mem_iff.mpr (by simp)
      have hhmem : hd ∈ db ++ [nr] := hperm.subset (by simp)
      rcases List.mem_append.mp hhmem with hdb | hsing
      · exfalso
        have hlt := hgt hd hdb
        rcases List.mem_cons.mp hmem with heq | ht
        · have : nr.id = hd.id := by rw [heq]
          omega
        · have hrel : descRel hd nr := (List.pairwise_cons.mp hsorted).1 nr ht
          have : nr.id ≤ hd.id := hrel
          omega
      · have heq : hd = nr := by simpa using hsing
        simp [heq]

/-- The list view after appending a dominating row shows that row first. -/
theorem list_all_head_of_append (db : List Row) (nr : Row)
    (hgt : ∀ x ∈ db, x.id < nr.id) :
    (list_all (db ++ [nr])).head? = ((db ++ [nr]).getLast?).map rowSummary := by
  unfold list_all
  rw [List.head?_map, head_insertionSort_append db nr hgt, List.getLast?_concat]

/-- Claim C3: on a well-formed non-empty store, the edit tool changes only
the `follow_up_actions` field of the single row carrying the maximum id,
setting it to the given text; every other row and every other field is
unchanged and no row is added or removed. -/
theorem C3_edit_updates_only_max_row (db : List Row) (t : String)
    (hwf : db.Pairwise fun a b => a.id < b.id) (hne : db ≠ []) :
    (edit_interaction_tool t db).db.length = db.length
    ∧ (∀ (i : Nat) (r : Row), db[i]? = some r → r.id ≠ maxId db →
        (edit_interaction_tool t db).db[i]? = some r)
    ∧ (∀ (i : Nat) (r : Row), db[i]? = some r → r.id = maxId db →
        (edit_interaction_tool t db).db[i]? =
          some { r with follow_up_actions := some t })
    ∧ (∃ (i : Nat) (r : Row), db[i]? = some r ∧ r.id = maxId db)
    ∧ (∀ (i j : Nat) (ri rj : Row), db[i]? = some ri → db[j]? = some rj →
        ri.id = maxId db → rj.id = maxId db → i = j) := by
  obtain ⟨a, l, rfl⟩ : ∃ a l, db = a :: l := by
    cases db with
    | nil => cases hne rfl
    | cons a l => exact ⟨a, l, rfl⟩
  refine ⟨?_, ?_, ?_, ?_, ?_⟩
  · rw [edit_db_cons]; simp
  · intro i r hir hmax
    rw [edit_db_cons, List.getElem?_map, hir]
    simp [updateRowIfTarget, Ne.symm hmax]
  · intro i r hir hmax
    rw [edit_db_cons, List.getElem?_map, hir]
    simp [updateRowIfTarget, hmax]
  · rcases maxId_mem (a :: l) (by simp) with ⟨r, hr, hid⟩
    rcases List.mem_iff_getElem?.mp hr with ⟨i, hi⟩
    exact ⟨i, r, hi, hid⟩
  · intro i j ri rj hi hj hri hrj
    rcases List.getElem?_eq_some_iff.mp hi with ⟨hilen, hieq⟩
    rcases List.getElem?_eq_some_iff.mp hj with ⟨hjlen, hjeq⟩
    by_contra hij
    rcases Nat.lt_or_ge i j with hlt | hge
    · have hpw := List.pairwise_iff_getElem.mp hwf i j hilen hjlen hlt
      rw [hieq, hjeq] at hpw
      omega
    · have hlt2 : j < i := Nat.lt_of_le_of_ne hge (fun h => hij h.symm)
      have hpw := List.pairwise_iff_getElem.mp hwf j i hjlen hilen hlt2
      rw [hieq, hjeq] at hpw
      omega

/-- Witness for C3 on a two-row store: the length is preserved and the
highest-id row gets the new follow-up text. -/
theorem C3_edit_updates_only_max_row_witness :
    (edit_interaction_tool "call next week" [sampleRow 1, sampleRow 2]).db.length = 2
    ∧ (edit_interaction_tool "call next week" [sampleRow 1, sampleRow 2]).db[1]? =
        some { sampleRow 2 with follow_up_actions := some "call next week" } := by
  have h := C3_edit_updates_only_max_row [sampleRow 1, sampleRow 2] "call next week"
    (by decide) (by decide)
  exact ⟨h.1, h.2.2.1 1 (sampleRow 2) rfl (by decide)⟩

/-- Claim C4: every input routed to the log action inserts exactly one row —
placeholder HCP name, fixed type "Meeting", the current timestamp, and the
raw input in both `topics_discussed` and `ai_summary` — and returns the fixed
confirmation string. -/
theorem C4_log_action_inserts_one_row (llm : String → String) (now : String)
    (db : List Row) (s : AgentState) (h : decide_action s = "log") :
    (agent_invoke llm now s db).db
      = db ++ [{ id := maxId db + 1,
                 hcp_name := some "Extracted via AI",
                 interaction_type := some "Meeting",
                 interaction_datetime := some now,
                 topics_discussed := some s.user_input,
                 products_discussed := none,
                 sentiment := none,
                 follow_up_actions := none,
                 ai_summary := some s.user_input }]
    ∧ (agent_invoke llm now s db).result = "✅ Interaction logged successfully using AI."
    ∧ (agent_invoke llm now s db).calls = [] := by
  have he : agent_invoke llm now s db = log_interaction_tool now s.user_input db := by
    unfold agent_invoke
    rw [h]
    rfl
  rw [he]
  exact ⟨rfl, rfl, rfl⟩

/-- Witness for C4: the scenario input "log this: called Dr. Rao about
product Y" matches no keyword, routes to log, and inserts the expected row. -/
theorem C4_log_action_inserts_one_row_witness :
    (agent_invoke (fun _ => "") "2026-10-12T09:00:00"
        { user_input := "log this: called Dr. Rao about product Y",
          action := none, result := none } []).db
      = [{ id := 1, hcp_name := some "Extracted via AI", interaction_type := some "Meeting",
           interaction_datetime := some "2026-10-12T09:00:00",
           topics_discussed := some "log this: called Dr. Rao about product Y",
           products_discussed := none, sentiment := none, follow_up_actions := none,
           ai_summary := some "log this: called Dr. Rao about product Y" }] := by
  have h := C4_log_action_inserts_one_row (fun _ => "") "2026-10-12T09:00:00" []
    { user_input := "log this: called Dr. Rao about product Y",
      action := none, result := none } (by decide)
  simpa [maxId] using h.1

/-- Claim C6: `list_all` returns all rows, ordered by id descending, and
immediately after any insert the newly inserted record is its first element. -/
theorem C6_list_all_desc (db : List Row) :
    (list_all db).Perm (db.map rowSummary)
    ∧ (list_all db).Pairwise (fun a b => b.1 ≤ a.1)
    ∧ (∀ op, isInsert op = true →
        (list_all (applyOp db op)).head? = ((applyOp db op).getLast?).map rowSummary) := by
  refine ⟨?_, ?_, ?_⟩
  · unfold list_all
    exact (List.perm_insertionSort _ _).map rowSummary
  · have hs : List.Sorted descRel (List.insertionSort descRel db) :=
      List.sorted_insertionSort _ _
    unfold list_all
    rw [List.pairwise_map]
    exact hs
  · intro op hop
    cases op with
    | form hcp itype idatetime topics products senti fua =>
        simp only [applyOp, form_insert_row]
        apply list_all_head_of_append
        intro x hx
        have := le_maxId db x hx
        show x.id < maxId db + 1
        omega
    | log now text =>
        simp only [applyOp, log_interaction_tool]
        apply list_all_head_of_append
        intro x hx
        have := le_maxId db x hx
        show x.id < maxId db + 1
        omega
    | edit t => simp [isInsert] at hop

/-- Witness for C6: after a log insert into the empty store, the list view's
first element is the summary of the newly inserted record. -/
theorem C6_list_all_desc_witness :
    (list_all (applyOp [] (Op.log "2026-10-12T09:05:00" "visit note"))).head?
      = ((applyOp [] (Op.log "2026-10-12T09:05:00" "visit note")).getLast?).map rowSummary :=
  (C6_list_all_desc []).2.2 _ rfl

/-- Claim C7: across every sequence of operations starting from the empty
store, ids are pairwise distinct and strictly increasing in insertion order,
every insert adds exactly one row, and no operation removes a row. -/
theorem C7_store_invariants (ops : List Op) :
    ((exec ops).Pairwise fun a b => a.id < b.id)
    ∧ ((exec ops).Pairwise fun a b => a.id ≠ b.id)
    ∧ (∀ op, isInsert op = true →
        (applyOp (exec ops) op).length = (exec ops).length + 1)
    ∧ (∀ op, ((exec ops).map fun r => r.id).Sublist
        ((applyOp (exec ops) op).map fun r => r.id)) := by
  have hasc : (exec ops).Pairwise fun a b => a.id < b.id :=
    asc_foldl ops [] List.Pairwise.nil
  exact ⟨hasc, hasc.imp (fun h => Nat.ne_of_lt h),
    fun op h => applyOp_insert_length _ op h, fun op => ids_sublist_applyOp _ op⟩

/-- Witness for C7: a log insert into the store reached by the empty
operation sequence adds exactly one row. -/
theorem C7_store_invariants_witness :
    (applyOp (exec []) (Op.log "2026-10-12T09:00:00" "note")).length
      = (exec []).length + 1 :=
  (C7_store_invariants []).2.2.1 _ rfl

/-- Claim C8: every failure of the store commit or of the LLM service is
surfaced to the caller unchanged — a tool returns an error exactly when its
oracle failed with that error — and on success each tool behaves as its pure
version; no tool catches, discards, retries or recovers a failure. -/
theorem C8_failures_propagate (llmE : String → Except String String)
    (commit : Except String Unit) (now input t : String) (db : List Row) (e : String) :
    (summarize_toolE llmE input db = Except.error e
        ↔ llmE (summarizePrompt input) = Except.error e)
    ∧ (sentiment_toolE llmE input db = Except.error e
        ↔ llmE (sentimentPrompt input) = Except.error e)
    ∧ (followup_toolE llmE input db = Except.error e
        ↔ llmE (followupPrompt input) = Except.error e)
    ∧ (log_interaction_toolE commit now input db = Except.error e
        ↔ commit = Except.error e)
    ∧ (edit_interaction_toolE commit t db = Except.error e ↔ commit = Except.error e)
    ∧ (commit = Except.ok () →
        log_interaction_toolE commit now input db
          = Except.ok (log_interaction_tool now input db))
    ∧ (commit = Except.ok () →
        edit_interaction_toolE commit t db = Except.ok (edit_interaction_tool t db))
    ∧ (∀ body, llmE (summarizePrompt input) = Except.ok body →
        summarize_toolE llmE input db
          = Except.ok { db := db, calls := [summarizePrompt input], result := body }) := by
  refine ⟨?_, ?_, ?_, ?_, ?_, ?_, ?_, ?_⟩
  · unfold summarize_toolE
    cases h : llmE (summarizePrompt input) <;> simp [h]
  · unfold sentiment_toolE
    cases h : llmE (sentimentPrompt input) <;> simp [h]
  · unfold followup_toolE
    cases h : llmE (followupPrompt input) <;> simp [h]
  · unfold log_interaction_toolE
    cases commit <;> simp
  · unfold edit_interaction_toolE
    cases commit <;> simp
  · intro hc
    subst hc
    rfl
  · intro hc
    subst hc
    rfl
  · intro body hb
    unfold summarize_toolE
    rw [hb]

/-- Witness for C8: a failing LLM oracle makes the summarize tool return
exactly that error. -/
theorem C8_failures_propagate_witness :
    summarize_toolE (fun _ => Except.error "ServiceError") "met Dr. Lee" []
      = Except.error "ServiceError" :=
  ((C8_failures_propagate (fun _ => Except.error "ServiceError") (Except.ok ())
      "2026-10-12T09:00:00" "met Dr. Lee" "t" [] "ServiceError").1).mpr rfl
